import Mathlib

/-!
PIC control for a thermo-electric cooling unit (`PIC_Control_C.c`).

A shallow embedding of the sampling buffer (`Sample`, `Send`), the serial
helpers (`getc`, `putc`), the actuation routines (`heat`, `cool`), the button
interrupt handler (`PORT1_ISR`) and one iteration of the `while(1)` loop of
`main`, followed by theorems about them.

Conventions.
* Device registers are natural numbers; a store to an 8-bit register keeps the
  value modulo `2^8`, a store to a 16-bit register modulo `2^16`.
* A bit-field `R_bit.Pk` of `io430.h` is bit `k` of register `R`.
* `unsigned char v[400]` is a map from `Fin 400`. The source checks no index, so
  an access `v[i]` with `i` outside `0..399` is executed and touches the memory
  next to the buffer. Two readings of the same code are given:
  - the functions in namespace `Unchecked` run the code on flat memory: the
    bytes at `v + idx` for `idx` outside `0..399` are the field `outside`, taken
    to be storage of no other object of the program, and the increment `i++`
    wraps at the largest `int`;
  - the functions `Sample`, `Send`, `mainCycle` are the same code observed up to
    its first access outside the buffer, where the run is reported as
    `Outcome.outOfBounds i`; they locate overruns.
  The two agree on every run that stays inside the buffer
  (`checked_Sample_eq_unchecked`, `checked_Send_eq_unchecked`).
* The largest value `INT_MAX` of `int` comes from the platform, not from the
  sources, and is a parameter of the `Unchecked` functions.
* `ADC10MEM` and `UCA0RXBUF` are volatile: the values seen by successive reads
  are given by the streams `adc` and `rx`, with read positions `adcPos`, `rxPos`.
-/

namespace PICControl

/-- Constants of `io430.h` used by `heat` and `cool`; the header is not part of
the sources, so their values are parameters. -/
structure Io430 where
  BIT6 : Nat
  OUTMOD_7 : Nat
  TASSEL_2 : Nat
  MC_1 : Nat

/-- The constant `NPOINTS` (`#define NPOINTS 400`). -/
def NPOINTS : Int := 400

/-- The constant `ON` (`#define ON 1`). -/
def ON : Nat := 1

/-- The constant `OFF` (`#define OFF 0`). -/
def OFF : Nat := 0

/-- The globals of the program and the device registers it touches. -/
@[ext]
structure State where
  /-- The buffer `unsigned char v[400]`. -/
  v : Fin 400 → Nat
  /-- The bytes of memory at `v + idx` for `idx` outside `0..399`. -/
  outside : Int → Nat
  /-- The global `int i`. -/
  i : Int
  /-- Successive values of `ADC10MEM`. -/
  adc : Nat → Nat
  /-- Number of reads of `ADC10MEM` so far. -/
  adcPos : Nat
  /-- Successive bytes delivered in `UCA0RXBUF`. -/
  rx : Nat → Nat
  /-- Number of bytes taken from `UCA0RXBUF` so far. -/
  rxPos : Nat
  /-- Bytes stored to `UCA0TXBUF`, oldest first. -/
  tx : List Nat
  P1OUT : Nat
  P1DIR : Nat
  P1SEL : Nat
  P1IFG : Nat
  P2OUT : Nat
  P2DIR : Nat
  P2SEL : Nat
  P2SEL2 : Nat
  TA0CCR0 : Nat
  TA0CCR1 : Nat
  TA0CCTL1 : Nat
  TA0CTL : Nat

/-- How a run of a piece of code ends. -/
inductive Outcome where
  /-- Normal completion in the given state. -/
  | done (s : State)
  /-- The code reached an access `v[idx]` with `idx` outside `0..399`; `s` is the
  state immediately before that access. The source has no check, so the C code
  performs the access (see `Unchecked`); the observation stops there. -/
  | outOfBounds (idx : Int) (s : State)
  /-- The iteration budget of the model was exhausted. -/
  | outOfFuel

/-- The final state of a run that completed normally. -/
def Outcome.state? : Outcome → Option State
  | .done s => some s
  | _ => none

/-- The index of the out-of-bounds access that ended the run, when there is one. -/
def Outcome.oobIndex? : Outcome → Option Int
  | .outOfBounds idx _ => some idx
  | _ => none

/-- The state in which the run stopped, whether normally or at an out-of-bounds
access. -/
def Outcome.lastState? : Outcome → Option State
  | .done s => some s
  | .outOfBounds _ s => some s
  | .outOfFuel => none

/-- Sequencing: continue with `f` after a normal completion. -/
def Outcome.andThen (r : Outcome) (f : State → Outcome) : Outcome :=
  match r with
  | .done s => f s
  | .outOfBounds idx s => .outOfBounds idx s
  | .outOfFuel => .outOfFuel

/-- Assignment `R_bit.Pb = val` to a one-bit field of an 8-bit register: the
value is truncated to one bit and only bit `b` of `r` changes. -/
def bitfieldWrite (r b val : Nat) : Nat :=
  if val % 2 = 1 then (r ||| 2 ^ b) % 256 else r &&& (255 - 2 ^ b)

/-- The indicator `GREEN_LED`, that is `P1OUT_bit.P0`. -/
def GREEN_LED (s : State) : Bool := s.P1OUT.testBit 0

/-- The polarity-select output `P2OUT_bit.P6`. -/
def polarity (s : State) : Bool := s.P2OUT.testBit 6

/-- The interrupt request flag `P1IFG_bit.P3`. -/
def buttonFlag (s : State) : Bool := s.P1IFG.testBit 3

/-- The handler `PORT1_ISR`: `GREEN_LED = OFF; P1IFG_bit.P3 = 0;`. -/
def PORT1_ISR (s : State) : State :=
  let s1 := { s with P1OUT := bitfieldWrite s.P1OUT 0 OFF }
  { s1 with P1IFG := bitfieldWrite s1.P1IFG 3 0 }

/-- The function `getc`: wait for a received byte and return `UCA0RXBUF`. -/
def getc (s : State) : Nat × State :=
  (s.rx s.rxPos % 256, { s with rxPos := s.rxPos + 1 })

/-- The function `putc`: wait for the transmitter and store `c` to `UCA0TXBUF`. -/
def putc (c : Nat) (s : State) : State :=
  { s with tx := s.tx ++ [c % 256] }

/-- The value `ADC10MEM >> 2` stored into an `unsigned char`, for a raw register
value `r`. -/
def toSample (r : Nat) : Nat := ((r % 65536) >>> 2) % 256

/-- The loop `for (...; i <= n; i++) body`, after its initialisation, with the
global `i` as loop variable. -/
def forLoop (body : State → Outcome) (n : Int) : Nat → State → Outcome
  | 0, _ => .outOfFuel
  | fuel + 1, s =>
    if s.i ≤ n then
      match body s with
      | .done s1 => forLoop body n fuel { s1 with i := s1.i + 1 }
      | r => r
    else .done s

/-- Body of the loop of `Sample`: `v[i] = (ADC10MEM >> 2);`. The register is
read before the store, so the reading is taken also when the store falls
outside the buffer. -/
def sampleBody (s : State) : Outcome :=
  if h : 0 ≤ s.i ∧ s.i < 400 then
    .done { s with
      v := Function.update s.v ⟨s.i.toNat, by omega⟩ (toSample (s.adc s.adcPos))
      adcPos := s.adcPos + 1 }
  else .outOfBounds s.i { s with adcPos := s.adcPos + 1 }

/-- Body of the loop of `Send`: `putc(v[i]);`. -/
def sendBody (s : State) : Outcome :=
  if h : 0 ≤ s.i ∧ s.i < 400 then
    .done (putc (s.v ⟨s.i.toNat, by omega⟩) s)
  else .outOfBounds s.i s

/-- The function `Sample(n)`: `for(i = 0; i<=n;i++) v[i] = (ADC10MEM >> 2);`.
The budget covers the `n + 1` iterations and the final test. -/
def Sample (n : Int) (s : State) : Outcome :=
  forLoop sampleBody n ((n + 1).toNat + 1) { s with i := 0 }

/-- The function `Send(n)`: `for(i = 0; i<=n;i++) putc(v[i]);`, with the same
budget as `Sample`. -/
def Send (n : Int) (s : State) : Outcome :=
  forLoop sendBody n ((n + 1).toNat + 1) { s with i := 0 }

/-- The function `heat(duty)`, statement by statement. -/
def heat (hdr : Io430) (duty : Int) (s : State) : State :=
  let s := { s with P2DIR := 0xFF }
  let s := { s with P2SEL := 0 }
  let s := { s with P2SEL2 := 0 }
  let s := { s with P2OUT := bitfieldWrite s.P2OUT 6 0xFF }
  let s := { s with P1DIR := (s.P1DIR ||| hdr.BIT6) % 256 }
  let s := { s with P1SEL := (s.P1SEL ||| hdr.BIT6) % 256 }
  let s := { s with TA0CCR0 := 1000 }
  let s := { s with TA0CCTL1 := hdr.OUTMOD_7 % 65536 }
  let s := { s with TA0CCR1 := (duty % 65536).toNat }
  { s with TA0CTL := (hdr.TASSEL_2 + hdr.MC_1) % 65536 }

/-- The function `cool(duty)`, statement by statement; `TA0CCR0 - duty` reads back
the period just stored. -/
def cool (hdr : Io430) (duty : Int) (s : State) : State :=
  let s := { s with P2DIR := 0xFF }
  let s := { s with P2SEL := 0 }
  let s := { s with P2SEL2 := 0 }
  let s := { s with P2OUT := bitfieldWrite s.P2OUT 6 0 }
  let s := { s with P1DIR := (s.P1DIR ||| hdr.BIT6) % 256 }
  let s := { s with P1SEL := (s.P1SEL ||| hdr.BIT6) % 256 }
  let s := { s with TA0CCR0 := 1000 }
  let s := { s with TA0CCTL1 := hdr.OUTMOD_7 % 65536 }
  let s := { s with TA0CCR1 := (((s.TA0CCR0 : Int) - duty) % 65536).toNat }
  { s with TA0CTL := (hdr.TASSEL_2 + hdr.MC_1) % 65536 }

/-- The `if (tc == 'h') ... else ...` statement of `main`, for the mode byte
`tc` and the duty byte `dc`. -/
def dispatch (hdr : Io430) (tc dc : Nat) (s : State) : State :=
  if tc = 'h'.toNat then
    let s := heat hdr (dc : Int) s
    { s with P1OUT := bitfieldWrite s.P1OUT 0 OFF }
  else
    let s := cool hdr (dc : Int) s
    { s with P1OUT := bitfieldWrite s.P1OUT 0 ON }

/-- One iteration of the `while(1)` loop of `main`. -/
def mainCycle (hdr : Io430) (s : State) : Outcome :=
  let s := (getc s).2
  (Send NPOINTS s).andThen fun s =>
  (Sample NPOINTS s).andThen fun s =>
  let (tc, s) := getc s
  let (dc, s) := getc s
  .done (dispatch hdr tc dc s)

/-- The call `Sample(n)` followed by the call `Send(n)`. -/
def sampleThenSend (n : Int) (s : State) : Outcome :=
  (Sample n s).andThen (Send n)

/-- A start state: cleared buffer and registers, converter readings
`40, 80, 120, ...`, host bytes `1, 2, 3, ...`. -/
def s0 : State where
  v := fun _ => 0
  outside := fun _ => 0
  i := 0
  adc := fun k => 40 * (k + 1)
  adcPos := 0
  rx := fun k => k + 1
  rxPos := 0
  tx := []
  P1OUT := 0
  P1DIR := 0
  P1SEL := 0
  P1IFG := 0
  P2OUT := 0
  P2DIR := 0
  P2SEL := 0
  P2SEL2 := 0
  TA0CCR0 := 0
  TA0CCR1 := 0
  TA0CCTL1 := 0
  TA0CTL := 0

/-- Header constants as in the MSP430 headers. -/
def hdr0 : Io430 where
  BIT6 := 0x40
  OUTMOD_7 := 0xE0
  TASSEL_2 := 0x200
  MC_1 := 0x10

/-- Entry `j` of the buffer, `0` when `j` is not an index of the buffer. -/
def vAt (v : Fin 400 → Nat) (j : Nat) : Nat :=
  if h : j < 400 then v ⟨j, h⟩ else 0

/-- The state after `m` iterations of the loop of `Sample` that start at index
`k` and stay inside the buffer. -/
def sampleRun (k m : Nat) (s : State) : State :=
  { s with
    i := ((k + m : Nat) : Int)
    adcPos := s.adcPos + m
    v := fun j =>
      if k ≤ j.val ∧ j.val < k + m then toSample (s.adc (s.adcPos + (j.val - k)))
      else s.v j }

/-- The state after `m` iterations of the loop of `Send` that start at index `k`
and stay inside the buffer. -/
def sendRun (k m : Nat) (s : State) : State :=
  { s with
    i := ((k + m : Nat) : Int)
    tx := s.tx ++ (List.range' k m).map (fun j => vAt s.v j % 256) }

/-- Load of `v[idx]` on flat memory. -/
def load (s : State) (idx : Int) : Nat :=
  if h : 0 ≤ idx ∧ idx < 400 then s.v ⟨idx.toNat, by omega⟩ else s.outside idx

/-- Store `v[idx] = val` on flat memory. -/
def store (s : State) (idx : Int) (val : Nat) : State :=
  if h : 0 ≤ idx ∧ idx < 400 then
    { s with v := Function.update s.v ⟨idx.toNat, by omega⟩ val }
  else { s with outside := Function.update s.outside idx val }

/-- The increment `x++` of an `int` whose largest value is `INT_MAX`: past
`INT_MAX` the two's-complement value wraps to the smallest `int`. -/
def intIncr (INT_MAX : Int) (x : Int) : Int :=
  if x = INT_MAX then -INT_MAX - 1 else x + 1

/-- Body of the loop of `Sample` on flat memory: `v[i] = (ADC10MEM >> 2);`, the
register read first, then the store. -/
def Unchecked.sampleBody (s : State) : State :=
  store { s with adcPos := s.adcPos + 1 } s.i (toSample (s.adc s.adcPos))

/-- Body of the loop of `Send` on flat memory: `putc(v[i]);`. -/
def Unchecked.sendBody (s : State) : State :=
  putc (load s s.i) s

/-- The loop `for (...; i <= n; i++) body` on flat memory, after its
initialisation; `none` when the iteration budget is exhausted. -/
def Unchecked.forLoop (INT_MAX : Int) (body : State → State) (n : Int) :
    Nat → State → Option State
  | 0, _ => none
  | fuel + 1, s =>
    if s.i ≤ n then
      let s1 := body s
      Unchecked.forLoop INT_MAX body n fuel { s1 with i := intIncr INT_MAX s1.i }
    else some s

/-- The function `Sample(n)` on flat memory, with a budget that covers `n + 1`
iterations and the final test. -/
def Unchecked.Sample (INT_MAX : Int) (n : Int) (s : State) : Option State :=
  Unchecked.forLoop INT_MAX Unchecked.sampleBody n ((n + 1).toNat + 1) { s with i := 0 }

/-- The function `Send(n)` on flat memory, with the same budget. -/
def Unchecked.Send (INT_MAX : Int) (n : Int) (s : State) : Option State :=
  Unchecked.forLoop INT_MAX Unchecked.sendBody n ((n + 1).toNat + 1) { s with i := 0 }

/-- The state after `m` iterations of the loop of `Sample` on flat memory that
start at index `k`. -/
def Unchecked.sampleRun (k m : Nat) (s : State) : State :=
  { s with
    i := ((k + m : Nat) : Int)
    adcPos := s.adcPos + m
    v := fun j =>
      if k ≤ j.val ∧ j.val < k + m then toSample (s.adc (s.adcPos + (j.val - k)))
      else s.v j
    outside := fun idx =>
      if 400 ≤ idx ∧ (k : Int) ≤ idx ∧ idx < ((k + m : Nat) : Int) then
        toSample (s.adc (s.adcPos + (idx.toNat - k)))
      else s.outside idx }

/-- The state after `m` iterations of the loop of `Send` on flat memory that
start at index `k`. -/
def Unchecked.sendRun (k m : Nat) (s : State) : State :=
  { s with
    i := ((k + m : Nat) : Int)
    tx := s.tx ++ (List.range' k m).map (fun (j : Nat) => load s (j : Int) % 256) }

theorem sampleRun_zero (k : Nat) (s : State) (hi : s.i = (k : Int)) :
    sampleRun k 0 s = s := by
  ext1 <;> simp [sampleRun, hi]
  funext j
  have : ¬ (k ≤ j.val ∧ j.val < k) := by omega
  simp [this]

theorem sendRun_zero (k : Nat) (s : State) (hi : s.i = (k : Int)) :
    sendRun k 0 s = s := by
  ext1 <;> simp [sendRun, hi]

theorem forLoop_sample_steps (n : Int) :
    ∀ (m fuel k : Nat) (s : State), s.i = (k : Int) → k + m ≤ 400 →
      ((k + m : Nat) : Int) ≤ n + 1 →
      forLoop sampleBody n (fuel + m) s = forLoop sampleBody n fuel (sampleRun k m s) := by
  intro m
  induction m with
  | zero =>
    intro fuel k s hi _ _
    rw [sampleRun_zero k s hi]; rfl
  | succ m ih =>
    intro fuel k s hi hk hn
    have hle : s.i ≤ n := by omega
    have hb : 0 ≤ s.i ∧ s.i < 400 := by omega
    have hk' : s.i.toNat = k := by omega
    rw [show fuel + (m + 1) = (fuel + m) + 1 by omega]
    rw [forLoop, if_pos hle]
    simp only [sampleBody, dif_pos hb]
    rw [ih fuel (k + 1) _ (by simp [hi]) (by omega) (by push_cast at hn ⊢; omega)]
    congr 1
    ext1 <;> simp [sampleRun, hi]
    · funext j
      simp only [Function.update_apply, Fin.ext_iff, hk']
      split_ifs <;> first | rfl | omega | (congr 2; omega)
    all_goals omega

theorem forLoop_send_steps (n : Int) :
    ∀ (m fuel k : Nat) (s : State), s.i = (k : Int) → k + m ≤ 400 →
      ((k + m : Nat) : Int) ≤ n + 1 →
      forLoop sendBody n (fuel + m) s = forLoop sendBody n fuel (sendRun k m s) := by
  intro m
  induction m with
  | zero =>
    intro fuel k s hi _ _
    rw [sendRun_zero k s hi]; rfl
  | succ m ih =>
    intro fuel k s hi hk hn
    have hle : s.i ≤ n := by omega
    have hb : 0 ≤ s.i ∧ s.i < 400 := by omega
    have hk' : s.i.toNat = k := by omega
    rw [show fuel + (m + 1) = (fuel + m) + 1 by omega]
    rw [forLoop, if_pos hle]
    simp only [sendBody, dif_pos hb]
    rw [ih fuel (k + 1) _ (by simp [putc, hi]) (by omega) (by push_cast at hn ⊢; omega)]
    congr 1
    ext1 <;> simp [sendRun, putc, hi]
    · omega
    · have hlt : k < 400 := by omega
      simp [List.range', vAt, hlt]

theorem Sample_inRange (n : Int) (s : State) (h0 : 0 ≤ n) (h1 : n ≤ 399) :
    Sample n s = .done (sampleRun 0 (n.toNat + 1) { s with i := 0 }) := by
  have hf : (n + 1).toNat + 1 = 1 + (n.toNat + 1) := by omega
  rw [Sample, hf, forLoop_sample_steps n (n.toNat + 1) 1 0 _ rfl (by omega) (by omega)]
  rw [forLoop, if_neg (by simp [sampleRun]; omega)]

theorem Sample_overrun (n : Int) (s : State) (h : 400 ≤ n) :
    Sample n s = .outOfBounds 400
      { sampleRun 0 400 { s with i := 0 } with adcPos := s.adcPos + 401 } := by
  have hf : (n + 1).toNat + 1 = ((n + 1).toNat - 400 + 1) + 400 := by omega
  rw [Sample, hf, forLoop_sample_steps n 400 _ 0 _ rfl (by omega) (by omega)]
  rw [forLoop, if_pos (by simp [sampleRun]; omega)]
  simp [sampleBody, sampleRun]

theorem Sample_negative (n : Int) (s : State) (h : n < 0) :
    Sample n s = .done { s with i := 0 } := by
  rw [Sample, forLoop, if_neg (by simp; omega)]

theorem Send_inRange (n : Int) (s : State) (h0 : 0 ≤ n) (h1 : n ≤ 399) :
    Send n s = .done (sendRun 0 (n.toNat + 1) { s with i := 0 }) := by
  have hf : (n + 1).toNat + 1 = 1 + (n.toNat + 1) := by omega
  rw [Send, hf, forLoop_send_steps n (n.toNat + 1) 1 0 _ rfl (by omega) (by omega)]
  rw [forLoop, if_neg (by simp [sendRun]; omega)]

theorem Send_overrun (n : Int) (s : State) (h : 400 ≤ n) :
    Send n s = .outOfBounds 400 (sendRun 0 400 { s with i := 0 }) := by
  have hf : (n + 1).toNat + 1 = ((n + 1).toNat - 400 + 1) + 400 := by omega
  rw [Send, hf, forLoop_send_steps n 400 _ 0 _ rfl (by omega) (by omega)]
  rw [forLoop, if_pos (by simp [sendRun]; omega)]
  simp [sendBody, sendRun]

theorem Send_negative (n : Int) (s : State) (h : n < 0) :
    Send n s = .done { s with i := 0 } := by
  rw [Send, forLoop, if_neg (by simp; omega)]

theorem Sample_terminates (n : Int) (s : State) : Sample n s ≠ .outOfFuel := by
  rcases lt_or_le n 0 with h | h
  · rw [Sample_negative n s h]; simp
  · rcases le_or_lt n 399 with h1 | h1
    · rw [Sample_inRange n s h h1]; simp
    · rw [Sample_overrun n s (by omega)]; simp

theorem Send_terminates (n : Int) (s : State) : Send n s ≠ .outOfFuel := by
  rcases lt_or_le n 0 with h | h
  · rw [Send_negative n s h]; simp
  · rcases le_or_lt n 399 with h1 | h1
    · rw [Send_inRange n s h h1]; simp
    · rw [Send_overrun n s (by omega)]; simp

theorem store_i (s : State) (idx : Int) (val : Nat) : (store s idx val).i = s.i := by
  unfold store; split <;> rfl

theorem unchecked_sampleRun_zero (k : Nat) (s : State) (hi : s.i = (k : Int)) :
    Unchecked.sampleRun k 0 s = s := by
  ext1 <;> simp [Unchecked.sampleRun, hi]
  · funext j
    have : ¬ (k ≤ j.val ∧ j.val < k) := by omega
    simp [this]
  · funext idx
    have : ¬ (400 ≤ idx ∧ (k : Int) ≤ idx ∧ idx < (k : Int)) := by omega
    simp [this]

theorem unchecked_sendRun_zero (k : Nat) (s : State) (hi : s.i = (k : Int)) :
    Unchecked.sendRun k 0 s = s := by
  ext1 <;> simp [Unchecked.sendRun, hi]

theorem unchecked_sample_steps (M n : Int) :
    ∀ (m fuel k : Nat) (s : State), s.i = (k : Int) →
      ((k + m : Nat) : Int) ≤ n + 1 → ((k + m : Nat) : Int) ≤ M →
      Unchecked.forLoop M Unchecked.sampleBody n (fuel + m) s =
        Unchecked.forLoop M Unchecked.sampleBody n fuel (Unchecked.sampleRun k m s) := by
  intro m
  induction m with
  | zero =>
    intro fuel k s hi _ _
    rw [unchecked_sampleRun_zero k s hi]; rfl
  | succ m ih =>
    intro fuel k s hi hn hM
    have hle : s.i ≤ n := by omega
    have hk' : s.i.toNat = k := by omega
    rw [show fuel + (m + 1) = (fuel + m) + 1 by omega]
    rw [Unchecked.forLoop, if_pos hle]
    have hinc : intIncr M (Unchecked.sampleBody s).i = ((k + 1 : Nat) : Int) := by
      have : (Unchecked.sampleBody s).i = s.i := by simp [Unchecked.sampleBody, store_i]
      rw [this, intIncr, if_neg (by omega)]
      push_cast; omega
    simp only [hinc]
    rw [ih fuel (k + 1) _ rfl (by push_cast at hn ⊢; omega) (by push_cast at hM ⊢; omega)]
    congr 1
    by_cases hb : 0 ≤ s.i ∧ s.i < 400 <;>
      ext1 <;> simp [Unchecked.sampleRun, Unchecked.sampleBody, store, hb]
    all_goals first
      | omega
      | (funext x
         try simp only [Function.update_apply, Fin.ext_iff, hk', hi]
         split_ifs <;> first | rfl | omega | (congr 2; omega))

theorem unchecked_send_steps (M n : Int) :
    ∀ (m fuel k : Nat) (s : State), s.i = (k : Int) →
      ((k + m : Nat) : Int) ≤ n + 1 → ((k + m : Nat) : Int) ≤ M →
      Unchecked.forLoop M Unchecked.sendBody n (fuel + m) s =
        Unchecked.forLoop M Unchecked.sendBody n fuel (Unchecked.sendRun k m s) := by
  intro m
  induction m with
  | zero =>
    intro fuel k s hi _ _
    rw [unchecked_sendRun_zero k s hi]; rfl
  | succ m ih =>
    intro fuel k s hi hn hM
    have hle : s.i ≤ n := by omega
    rw [show fuel + (m + 1) = (fuel + m) + 1 by omega]
    rw [Unchecked.forLoop, if_pos hle]
    have hinc : intIncr M (Unchecked.sendBody s).i = ((k + 1 : Nat) : Int) := by
      have : (Unchecked.sendBody s).i = s.i := by simp [Unchecked.sendBody, putc]
      rw [this, intIncr, if_neg (by omega)]
      push_cast; omega
    simp only [hinc]
    rw [ih fuel (k + 1) _ rfl (by push_cast at hn ⊢; omega) (by push_cast at hM ⊢; omega)]
    congr 1
    ext1 <;> simp [Unchecked.sendRun, Unchecked.sendBody, putc, hi]
    · omega
    · simp [List.range', load]

theorem unchecked_Sample_eq (M n : Int) (s : State) (h0 : 0 ≤ n) (hM : n < M) :
    Unchecked.Sample M n s = some (Unchecked.sampleRun 0 (n.toNat + 1) { s with i := 0 }) := by
  have hf : (n + 1).toNat + 1 = 1 + (n.toNat + 1) := by omega
  rw [Unchecked.Sample, hf,
    unchecked_sample_steps M n (n.toNat + 1) 1 0 _ rfl (by omega) (by omega)]
  rw [Unchecked.forLoop, if_neg (by simp [Unchecked.sampleRun]; omega)]

theorem unchecked_Send_eq (M n : Int) (s : State) (h0 : 0 ≤ n) (hM : n < M) :
    Unchecked.Send M n s = some (Unchecked.sendRun 0 (n.toNat + 1) { s with i := 0 }) := by
  have hf : (n + 1).toNat + 1 = 1 + (n.toNat + 1) := by omega
  rw [Unchecked.Send, hf,
    unchecked_send_steps M n (n.toNat + 1) 1 0 _ rfl (by omega) (by omega)]
  rw [Unchecked.forLoop, if_neg (by simp [Unchecked.sendRun]; omega)]

theorem checked_Sample_eq_unchecked (M n : Int) (s : State) (h0 : 0 ≤ n) (h1 : n ≤ 399)
    (hM : n < M) : (Sample n s).state? = Unchecked.Sample M n s := by
  rw [Sample_inRange n s h0 h1, unchecked_Sample_eq M n s h0 hM]
  simp only [Outcome.state?, Option.some.injEq]
  ext1
  case outside =>
    funext idx
    simp only [sampleRun, Unchecked.sampleRun]
    rw [if_neg (by omega)]
  all_goals simp [sampleRun, Unchecked.sampleRun]

theorem checked_Send_eq_unchecked (M n : Int) (s : State) (h0 : 0 ≤ n) (h1 : n ≤ 399)
    (hM : n < M) : (Send n s).state? = Unchecked.Send M n s := by
  rw [Send_inRange n s h0 h1, unchecked_Send_eq M n s h0 hM]
  simp only [Outcome.state?, Option.some.injEq]
  ext1 <;> simp [sendRun, Unchecked.sendRun]
  intro j hj
  have : j < 400 := by omega
  simp [load, vAt, this]

theorem toSample_of_lt (r : Nat) (h : r < 1024) : toSample r = r >>> 2 := by
  unfold toSample
  rw [Nat.mod_eq_of_lt (show r < 65536 by omega), Nat.shiftRight_eq_div_pow]
  exact Nat.mod_eq_of_lt (by norm_num; omega)

theorem testBit_bitfieldWrite (r b val : Nat) (hb : b < 8) :
    (bitfieldWrite r b val).testBit b = decide (val % 2 = 1) := by
  unfold bitfieldWrite
  split
  · rename_i h
    rw [show (256 : Nat) = 2 ^ 8 by norm_num, Nat.testBit_mod_two_pow, Nat.testBit_or,
      Nat.testBit_two_pow_self]
    simp [hb, h]
  · rename_i h
    rw [Nat.testBit_and]
    have : (255 - 2 ^ b).testBit b = false := by
      interval_cases b <;> decide
    simp [this, h]

theorem dispatch_polarity (hdr : Io430) (tc d : Nat) (s : State) :
    polarity (dispatch hdr tc d s) = decide (tc = 'h'.toNat) := by
  unfold dispatch
  split
  · rename_i h
    show (bitfieldWrite s.P2OUT 6 0xFF).testBit 6 = _
    rw [testBit_bitfieldWrite _ _ _ (by decide)]
    simp [h]
  · rename_i h
    show (bitfieldWrite s.P2OUT 6 0).testBit 6 = _
    rw [testBit_bitfieldWrite _ _ _ (by decide)]
    simp
    exact h

theorem dispatch_GREEN_LED (hdr : Io430) (tc d : Nat) (s : State) :
    GREEN_LED (dispatch hdr tc d s) = !decide (tc = 'h'.toNat) := by
  unfold dispatch
  split
  · rename_i h
    show (bitfieldWrite _ 0 OFF).testBit 0 = _
    rw [testBit_bitfieldWrite _ _ _ (by decide)]
    simp [h, OFF]
  · rename_i h
    show (bitfieldWrite _ 0 ON).testBit 0 = _
    rw [testBit_bitfieldWrite _ _ _ (by decide)]
    simp [ON]
    exact h

theorem dispatch_TA0CCR0 (hdr : Io430) (tc d : Nat) (s : State) :
    (dispatch hdr tc d s).TA0CCR0 = 1000 := by
  unfold dispatch
  split <;> rfl

theorem dispatch_TA0CCR1 (hdr : Io430) (tc d : Nat) (s : State) :
    (dispatch hdr tc d s).TA0CCR1 =
      if tc = 'h'.toNat then ((d : Int) % 65536).toNat
      else (((1000 : Nat) : Int) - (d : Int)) % 65536 |>.toNat := by
  unfold dispatch
  split <;> rfl

/-- C3: for mode byte `'h'` and every duty byte `d` in `[0,255]`, the dispatch
step (`heat(d)` then `GREEN_LED = OFF`) leaves `P2OUT` bit 6 set, `TA0CCR1` equal
to `min d 1000`, which is `d`, and `GREEN_LED` off. -/
theorem C3_dispatch_heat (hdr : Io430) (d : Nat) (hd : d ≤ 255) (s : State) :
    polarity (dispatch hdr 'h'.toNat d s) = true ∧
    (dispatch hdr 'h'.toNat d s).TA0CCR1 = min d 1000 ∧
    (dispatch hdr 'h'.toNat d s).TA0CCR1 = d ∧
    GREEN_LED (dispatch hdr 'h'.toNat d s) = false := by
  rw [dispatch_polarity, dispatch_GREEN_LED, dispatch_TA0CCR1, if_pos rfl]
  refine ⟨by simp, by omega, by omega, by simp⟩

theorem C3_dispatch_heat_witness :
    polarity (dispatch hdr0 'h'.toNat 200 s0) = true ∧
    (dispatch hdr0 'h'.toNat 200 s0).TA0CCR1 = min 200 1000 ∧
    (dispatch hdr0 'h'.toNat 200 s0).TA0CCR1 = 200 ∧
    GREEN_LED (dispatch hdr0 'h'.toNat 200 s0) = false :=
  C3_dispatch_heat hdr0 200 (by decide) s0

/-- C4: for every mode byte other than `'h'` and every duty byte `d` in
`[0,255]`, the dispatch step (`cool(d)` then `GREEN_LED = ON`) leaves `P2OUT`
bit 6 clear, `TA0CCR1` equal to `1000 - min d 1000` and `GREEN_LED` on; `d = 255`
gives 745, `d = 0` gives 1000, and `TA0CCR1` never exceeds 1000. -/
theorem C4_dispatch_cool (hdr : Io430) (tc d : Nat) (htc : tc ≠ 'h'.toNat) (hd : d ≤ 255)
    (s : State) :
    polarity (dispatch hdr tc d s) = false ∧
    (dispatch hdr tc d s).TA0CCR1 = 1000 - min d 1000 ∧
    GREEN_LED (dispatch hdr tc d s) = true ∧
    (d = 255 → (dispatch hdr tc d s).TA0CCR1 = 745) ∧
    (d = 0 → (dispatch hdr tc d s).TA0CCR1 = 1000) ∧
    (dispatch hdr tc d s).TA0CCR1 ≤ 1000 := by
  rw [dispatch_polarity, dispatch_GREEN_LED, dispatch_TA0CCR1, if_neg htc]
  refine ⟨by simp; exact htc, by omega, by simp; exact htc, by omega, by omega, by omega⟩

theorem C4_dispatch_cool_witness :
    polarity (dispatch hdr0 'c'.toNat 255 s0) = false ∧
    (dispatch hdr0 'c'.toNat 255 s0).TA0CCR1 = 1000 - min 255 1000 ∧
    GREEN_LED (dispatch hdr0 'c'.toNat 255 s0) = true ∧
    (255 = 255 → (dispatch hdr0 'c'.toNat 255 s0).TA0CCR1 = 745) ∧
    (255 = 0 → (dispatch hdr0 'c'.toNat 255 s0).TA0CCR1 = 1000) ∧
    (dispatch hdr0 'c'.toNat 255 s0).TA0CCR1 ≤ 1000 :=
  C4_dispatch_cool hdr0 'c'.toNat 255 (by decide) (by decide) s0

/-- C5: for every command and every starting state, applying the dispatch step
twice gives the same polarity bit, `TA0CCR1`, `TA0CCR0` and `GREEN_LED` after
the second application as after the first. -/
theorem C5_dispatch_idempotent (hdr : Io430) (tc dc : Nat) (s : State) :
    polarity (dispatch hdr tc dc (dispatch hdr tc dc s)) = polarity (dispatch hdr tc dc s) ∧
    (dispatch hdr tc dc (dispatch hdr tc dc s)).TA0CCR1 = (dispatch hdr tc dc s).TA0CCR1 ∧
    (dispatch hdr tc dc (dispatch hdr tc dc s)).TA0CCR0 = (dispatch hdr tc dc s).TA0CCR0 ∧
    GREEN_LED (dispatch hdr tc dc (dispatch hdr tc dc s)) = GREEN_LED (dispatch hdr tc dc s) := by
  simp only [dispatch_polarity, dispatch_GREEN_LED, dispatch_TA0CCR0, dispatch_TA0CCR1,
    and_self]

/-- C6: `PORT1_ISR` leaves `GREEN_LED` off and `P1IFG` bit 3 cleared, and does
not change `P2OUT` (so not its bit 6), `TA0CCR1`, `TA0CCR0` or the buffer `v`. -/
theorem C6_PORT1_ISR (s : State) :
    GREEN_LED (PORT1_ISR s) = false ∧
    buttonFlag (PORT1_ISR s) = false ∧
    polarity (PORT1_ISR s) = polarity s ∧
    (PORT1_ISR s).P2OUT = s.P2OUT ∧
    (PORT1_ISR s).TA0CCR1 = s.TA0CCR1 ∧
    (PORT1_ISR s).TA0CCR0 = s.TA0CCR0 ∧
    (PORT1_ISR s).v = s.v := by
  refine ⟨?_, ?_, rfl, rfl, rfl, rfl, rfl⟩
  · show (bitfieldWrite s.P1OUT 0 OFF).testBit 0 = false
    rw [testBit_bitfieldWrite _ _ _ (by decide)]
    simp [OFF]
  · show (bitfieldWrite s.P1IFG 3 0).testBit 3 = false
    rw [testBit_bitfieldWrite _ _ _ (by decide)]
    simp

/-- C8: after the dispatch step for any mode byte and any duty byte `d` in
`[0,255]`, from any state, `TA0CCR0` is 1000 and `TA0CCR1` is a 16-bit value
with `0 ≤ TA0CCR1 ≤ TA0CCR0`. -/
theorem C8_period_and_duty (hdr : Io430) (tc d : Nat) (hd : d ≤ 255) (s : State) :
    (dispatch hdr tc d s).TA0CCR0 = 1000 ∧
    0 ≤ (dispatch hdr tc d s).TA0CCR1 ∧
    (dispatch hdr tc d s).TA0CCR1 ≤ (dispatch hdr tc d s).TA0CCR0 ∧
    (dispatch hdr tc d s).TA0CCR1 < 65536 := by
  rw [dispatch_TA0CCR0, dispatch_TA0CCR1]
  split <;> omega

theorem C8_period_and_duty_witness :
    (dispatch hdr0 7 0 s0).TA0CCR0 = 1000 ∧
    0 ≤ (dispatch hdr0 7 0 s0).TA0CCR1 ∧
    (dispatch hdr0 7 0 s0).TA0CCR1 ≤ (dispatch hdr0 7 0 s0).TA0CCR0 ∧
    (dispatch hdr0 7 0 s0).TA0CCR1 < 65536 :=
  C8_period_and_duty hdr0 7 0 (by decide) s0

/-- C1 fails on the code: `Sample(2)` followed by `Send(2)` on converter readings
`40, 80, 120` writes the three bytes `10, 20, 30` (one per index `0..2`), not two,
and leaves `i = 3`; for `n = 400` the run reaches the access `v[400]`. -/
theorem C1_sample_send_length :
    ((sampleThenSend 2 s0).state?.map (·.tx)) = some [10, 20, 30] ∧
    ((sampleThenSend 2 s0).state?.map (·.tx.length)) ≠ some 2 ∧
    ((sampleThenSend 2 s0).state?.map (·.i)) = some 3 ∧
    (sampleThenSend 400 s0).oobIndex? = some 400 := by
  refine ⟨by decide, by decide, by decide, ?_⟩
  rw [sampleThenSend, Sample_overrun 400 s0 (by decide)]
  rfl

/-- C7 fails on the code: in every iteration of the main loop, from every state,
after the trigger byte is taken `Send(NPOINTS)` transmits the 400 bytes of `v`
and then reaches a load of `v[400]`, the 401st byte of the loop `i = 0..400`;
this happens before any converter reading or command byte is taken. -/
theorem C7_cycle_reads_past_buffer :
    ∀ (hdr : Io430) (s : State), ∃ s1,
      mainCycle hdr s = .outOfBounds 400 s1 ∧
      s1.tx = s.tx ++ (List.range 400).map (fun j => vAt s.v j % 256) ∧
      s1.rxPos = s.rxPos + 1 ∧ s1.adcPos = s.adcPos := by
  intro hdr s
  refine ⟨sendRun 0 400 { (getc s).2 with i := 0 }, ?_, ?_, rfl, rfl⟩
  · simp only [mainCycle, NPOINTS]
    rw [Send_overrun 400 _ (by decide)]
    rfl
  · simp [sendRun, getc, List.range_eq_range']

/-- C10 fails on the code: from every state, the `Send(NPOINTS)` and the
`Sample(NPOINTS)` of the main loop each reach an access of `v` at index 400,
which is not strictly less than 400. -/
theorem C10_main_loop_reaches_index_400 :
    ∀ s : State, (Send NPOINTS s).oobIndex? = some 400 ∧
      (Sample NPOINTS s).oobIndex? = some 400 ∧ ¬ ((400 : Int) < 400) := by
  intro s
  rw [NPOINTS, Sample_overrun 400 s (by decide), Send_overrun 400 s (by decide)]
  simp [Outcome.oobIndex?]

end PICControl
